import Mathlib

/-!
Shallow embedding of the wind-particle core (`src/Vector.ts`, `src/Field.ts`,
`src/CesiumParticles.ts`).  Geographic coordinates and flow samples are
modelled over `ℚ` (the source uses JS numbers; all arithmetic relevant to the
claims is exact).  Vector magnitudes, which the source computes with
`Math.sqrt`, live in `ℝ` via `Real.sqrt`.  The one place where JS
division-by-zero semantics matters (`indexFor`) is modelled with an explicit
JS-number type carrying `NaN`/`Infinity`.  External collaborators
(`Math.random`, `unproject`, `project`, occlusion) enter as oracle arguments.
-/

namespace Wind

/-- `Vector` from `src/Vector.ts`: a 2-component flow sample.  The JS class
also caches `m = magnitude()` at construction; since `m` is always exactly
`magnitude()`, it is modelled as the derived function `Vector.magnitude`. -/
structure Vector where
  u : ℚ
  v : ℚ
deriving DecidableEq

/-- `Vector.magnitude`: `Math.sqrt(u*u + v*v)`. -/
noncomputable def Vector.magnitude (w : Vector) : ℝ :=
  Real.sqrt ((w.u : ℝ) * w.u + (w.v : ℝ) * w.v)

/-! ### JS number model for `indexFor` (src/CesiumParticles.ts lines 42-50)

`indexFor` divides by `max - min`, which in JS produces `Infinity`/`-Infinity`
/`NaN` when `max == min`.  `JsNum` captures exactly those non-finite values on
top of exact rationals. -/

/-- A JS number that is either finite (exact rational) or one of the
non-finite values `NaN`, `Infinity`, `-Infinity`. -/
inductive JsNum where
  | nan : JsNum
  | posInf : JsNum
  | negInf : JsNum
  | fin : ℚ → JsNum
deriving DecidableEq

/-- JS division of two finite numbers: `x / 0` is `NaN` when `x = 0`, else a
signed infinity (the zero denominator `max - min` is `+0` in JS). -/
def jsDiv (a b : ℚ) : JsNum :=
  if b = 0 then
    if a = 0 then .nan else if 0 < a then .posInf else .negInf
  else .fin (a / b)

/-- JS multiplication of a number by a finite factor. -/
def jsMulFin (x : JsNum) (k : ℚ) : JsNum :=
  match x with
  | .nan => .nan
  | .posInf => if 0 < k then .posInf else if k < 0 then .negInf else .nan
  | .negInf => if 0 < k then .negInf else if k < 0 then .posInf else .nan
  | .fin q => .fin (q * k)

/-- JS `Math.round`: half-up (toward `+Infinity`); fixes `NaN` and the
infinities. -/
def jsRound (x : JsNum) : JsNum :=
  match x with
  | .fin q => .fin (⌊q + 1/2⌋ : ℤ)
  | y => y

/-- JS `Math.min`: `NaN` if either argument is `NaN`. -/
def jsMin : JsNum → JsNum → JsNum
  | .nan, _ => .nan
  | _, .nan => .nan
  | .negInf, _ => .negInf
  | _, .negInf => .negInf
  | .posInf, y => y
  | x, .posInf => x
  | .fin p, .fin q => .fin (min p q)

/-- JS `Math.max`: `NaN` if either argument is `NaN`. -/
def jsMax : JsNum → JsNum → JsNum
  | .nan, _ => .nan
  | _, .nan => .nan
  | .posInf, _ => .posInf
  | _, .posInf => .posInf
  | .negInf, y => y
  | x, .negInf => x
  | .fin p, .fin q => .fin (max p q)

/-- `indexFor` from `src/CesiumParticles.ts`:
`Math.max(0, Math.min(colorScale.length - 1,
  Math.round(((m - min) / (max - min)) * (colorScale.length - 1))))`. -/
def indexFor (m mn mx : ℚ) (colorScale : List String) : JsNum :=
  let k : ℚ := (colorScale.length : ℚ) - 1
  jsMax (.fin 0) (jsMin (.fin k) (jsRound (jsMulFin (jsDiv (m - mn) (mx - mn)) k)))

/-! ### Field (src/Field.ts) -/

/-- Constructor options of `Field` (src/Field.ts lines 4-17).  `us`/`vs`
entries may be `null`/`undefined` in JS; modelled as `Option ℚ`.  The JS
ternary `options.wrappedX ? options.wrappedX : ...` only distinguishes truthy
from falsy, so `wrappedX` is a `Bool` defaulting to `false`. -/
structure FieldOptions where
  xmin : ℚ
  xmax : ℚ
  ymin : ℚ
  ymax : ℚ
  cols : ℕ
  rows : ℕ
  us : List (Option ℚ)
  vs : List (Option ℚ)
  deltaX : ℚ
  deltaY : ℚ
  wrappedX : Bool := false
deriving DecidableEq

/-- JS array indexing with a (possibly negative) integer index: out-of-range
access yields `undefined`, modelled as `none`. -/
def jget {α : Type} (l : List α) (i : ℤ) : Option α :=
  if 0 ≤ i then l.get? i.toNat else none

/-- The cell stored at flat position `p` (src/Field.ts `buildGrid` inner
loop): `new Vector(us[p], vs[p])` when both samples are valid
(`isValid = not null and not undefined`), else `null`. -/
def gridCell (o : FieldOptions) (p : ℕ) : Option Vector :=
  match (o.us.get? p).join, (o.vs.get? p).join with
  | some u, some v => some ⟨u, v⟩
  | _, _ => none

/-- One row of `buildGrid` (src/Field.ts lines 95-116): `cols` cells read
at flat positions `j*cols .. j*cols+cols-1`, with the first column
duplicated at the end when the field is continuous (`row.push(row[0])`;
with `cols = 0` the pushed `row[0]` is `undefined`, i.e. an empty cell). -/
def gridRow (o : FieldOptions) (isCont : Bool) (j : ℕ) : List (Option Vector) :=
  let row := (List.range o.cols).map fun i => gridCell o (j * o.cols + i)
  if isCont then row ++ [(row.get? 0).join] else row

/-- `buildGrid` (src/Field.ts lines 86-119): row-major grid of rows. -/
def buildGrid (o : FieldOptions) (isCont : Bool) : List (List (Option Vector)) :=
  (List.range o.rows).map (gridRow o isCont)

/-- The `Field` state after the constructor body (src/Field.ts lines 51-83),
excluding `range` which is modelled separately (it is the only part of
construction that can throw). -/
structure Field where
  xmin : ℚ
  xmax : ℚ
  ymin : ℚ
  ymax : ℚ
  cols : ℕ
  rows : ℕ
  deltaX : ℚ
  deltaY : ℚ
  isContinuous : Bool
  wrappedX : Bool
  grid : List (List (Option Vector))
deriving DecidableEq

/-- `Field` constructor (src/Field.ts lines 51-83): `ymin`/`ymax` are kept
as given only when `deltaY < 0 && ymin < ymax` (flipped-Y data), otherwise
re-sorted ascending; `isContinuous` is `Math.floor(cols * deltaX) >= 360`;
`wrappedX` is the option if truthy, else `xmax > 180`. -/
def mkField (o : FieldOptions) : Field :=
  let flipY := o.deltaY < 0 ∧ o.ymin < o.ymax
  let ymin := if flipY then o.ymin else min o.ymax o.ymin
  let ymax := if flipY then o.ymax else max o.ymax o.ymin
  let isCont : Bool := decide ((360 : ℤ) ≤ ⌊(o.cols : ℚ) * o.deltaX⌋)
  { xmin := o.xmin, xmax := o.xmax, ymin := ymin, ymax := ymax,
    cols := o.cols, rows := o.rows, deltaX := o.deltaX, deltaY := o.deltaY,
    isContinuous := isCont,
    wrappedX := o.wrappedX || decide (o.xmax > 180),
    grid := buildGrid o isCont }

/-- `floorMod` (src/Field.ts lines 27-29): `a - n * Math.floor(a / n)`. -/
def floorMod (a n : ℚ) : ℚ := a - n * ⌊a / n⌋

/-- `getWrappedLongitudes` (src/Field.ts lines 212-232). -/
def getWrappedLongitudes (f : Field) : ℚ × ℚ :=
  if f.wrappedX then
    if f.isContinuous then (-180, 180) else (f.xmin - 360, f.xmax - 360)
  else (f.xmin, f.xmax)

/-- The latitude half of `contains` (src/Field.ts lines 240-246). -/
def latitudeIn (f : Field) (lat : ℚ) : Bool :=
  if 0 ≤ f.deltaY then decide (f.ymin ≤ lat) && decide (lat ≤ f.ymax)
  else decide (f.ymax ≤ lat) && decide (lat ≤ f.ymin)

/-- `contains` (src/Field.ts lines 234-249). -/
def contains (f : Field) (lon lat : ℚ) : Bool :=
  let a := getWrappedLongitudes f
  (decide (a.1 ≤ lon) && decide (lon ≤ a.2)) && latitudeIn f lat

/-- `getDecimalIndexes` (src/Field.ts lines 255-259). -/
def getDecimalIndexes (f : Field) (lon lat : ℚ) : ℚ × ℚ :=
  (floorMod (lon - f.xmin) 360 / f.deltaX, (f.ymax - lat) / f.deltaY)

/-- `clampColumnIndex` (src/Field.ts lines 341-352). -/
def clampColumnIndex (f : Field) (ii : ℤ) : ℤ :=
  let i := if ii < 0 then 0 else ii
  if ii > (f.cols : ℤ) - 1 then (f.cols : ℤ) - 1 else i

/-- `clampRowIndex` (src/Field.ts lines 361-375). -/
def clampRowIndex (f : Field) (jj : ℤ) : ℤ :=
  let j := if jj < 0 then 0 else jj
  if jj > (f.rows : ℤ) - 1 then (f.rows : ℤ) - 1 else j

/-- `valueAtIndexes` (src/Field.ts lines 433-435): `grid[j][i]`.  A missing
row (`undefined` in JS) yields no value. -/
def valueAtIndexes (f : Field) (i j : ℤ) : Option Vector :=
  match jget f.grid j with
  | none => none
  | some row => (jget row i).join

/-- `valueAt` (src/Field.ts lines 266-278): nearest cell, with both floored
indexes clamped into range; `null` outside `contains`. -/
def valueAt (f : Field) (lon lat : ℚ) : Option Vector :=
  if contains f lon lat then
    let idx := getDecimalIndexes f lon lat
    valueAtIndexes f (clampColumnIndex f ⌊idx.1⌋) (clampRowIndex f ⌊idx.2⌋)
  else none

/-- `hasValueAt` (src/Field.ts lines 298-302). -/
def hasValueAt (f : Field) (lon lat : ℚ) : Bool :=
  (valueAt f lon lat).isSome

/-- `bilinearInterpolateVector` (src/Field.ts lines 144-162). -/
def bilinearInterpolateVector (x y : ℚ) (g00 g10 g01 g11 : Vector) : Vector :=
  let rx := 1 - x
  let ry := 1 - y
  let a := rx * ry
  let b := x * ry
  let c := rx * y
  let d := x * y
  ⟨g00.u * a + g10.u * b + g01.u * c + g11.u * d,
   g00.v * a + g10.v * b + g01.v * c + g11.v * d⟩

/-- `getFourSurroundingIndexes` (src/Field.ts lines 384-397): `(fi, ci, fj,
cj)`.  Note `fi = Math.floor(i)` is not clamped; `ci` wraps to 0 on
continuous grids and is clamped; `fj`/`cj` are clamped. -/
def getFourSurroundingIndexes (f : Field) (i j : ℚ) : ℤ × ℤ × ℤ × ℤ :=
  let fi : ℤ := ⌊i⌋
  let ci0 : ℤ := if f.isContinuous ∧ (f.cols : ℤ) ≤ fi + 1 then 0 else fi + 1
  let ci := clampColumnIndex f ci0
  let fj := clampRowIndex f ⌊j⌋
  let cj := clampRowIndex f (fj + 1)
  (fi, ci, fj, cj)

/-- `getFourSurroundingValues` (src/Field.ts lines 410-426): all four corner
cells, or `null` as soon as a row is missing or a corner is empty. -/
def getFourSurroundingValues (f : Field) (fi ci fj cj : ℤ) :
    Option (Vector × Vector × Vector × Vector) :=
  match jget f.grid fj with
  | none => none
  | some row =>
    match (jget row fi).join, (jget row ci).join with
    | some g00, some g10 =>
      match jget f.grid cj with
      | none => none
      | some row2 =>
        match (jget row2 fi).join, (jget row2 ci).join with
        | some g01, some g11 => some (g00, g10, g01, g11)
        | _, _ => none
    | _, _ => none

/-- `interpolatePoint` (src/Field.ts lines 309-333): bilinear blend of the
four surrounding corners with weights `x = i - fi`, `y = j - fj`. -/
def interpolatePoint (f : Field) (i j : ℚ) : Option Vector :=
  let idx := getFourSurroundingIndexes f i j
  match getFourSurroundingValues f idx.1 idx.2.1 idx.2.2.1 idx.2.2.2 with
  | some (g00, g10, g01, g11) =>
    some (bilinearInterpolateVector (i - idx.1) (j - idx.2.2.1) g00 g10 g01 g11)
  | none => none

/-- `interpolatedValueAt` (src/Field.ts lines 286-296). -/
def interpolatedValueAt (f : Field) (lon lat : ℚ) : Option Vector :=
  if contains f lon lat then
    let ij := getDecimalIndexes f lon lat
    interpolatePoint f ij.1 ij.2
  else none

/-- `longitudeAtX` (src/Field.ts lines 452-461): cell-center longitude. -/
def longitudeAtX (f : Field) (i : ℤ) : ℚ :=
  let lon := f.xmin + f.deltaX / 2 + i * f.deltaX
  if f.wrappedX then (if 180 < lon then lon - 360 else lon) else lon

/-- `latitudeAtY` (src/Field.ts lines 467-471): cell-center latitude. -/
def latitudeAtY (f : Field) (j : ℤ) : ℚ :=
  f.ymax - f.deltaY / 2 - j * f.deltaY

/-! ### Range computation and construction (src/Field.ts lines 167-205)

`calculateRange` starts `min = Number.POSITIVE_INFINITY`, `max =
Number.NEGATIVE_INFINITY` (so the `min === undefined` / `max === undefined`
branches in the source are dead code) and folds `Math.min`/`Math.max` of the
magnitude (`vec.m || vec.magnitude()`, and `m` is always the magnitude) over
every non-empty cell, row-major.  The infinities are modelled in `EReal`.
The only throw in construction is `grid required` when `this.grid[0]` is
`undefined`; rows produced by `buildGrid` are uniform, so the row-major fold
is over `grid.flatten`. -/

/-- One step of the `calculateRange` fold: skip empty cells, otherwise update
the running minimum and maximum of the magnitude. -/
noncomputable def rangeStep (acc : EReal × EReal) (cell : Option Vector) :
    EReal × EReal :=
  match cell with
  | none => acc
  | some w => (min acc.1 (w.magnitude : ℝ), max acc.2 (w.magnitude : ℝ))

/-- `calculateRange` including its `grid required` throw. -/
noncomputable def calculateRange (f : Field) :
    Except String (EReal × EReal) :=
  match f.grid.get? 0 with
  | none => .error "grid required"
  | some _ => .ok (f.grid.flatten.foldl rangeStep (⊤, ⊥))

/-- The whole `Field` constructor: the field state plus its computed range,
or the `calculateRange` error. -/
noncomputable def constructField (o : FieldOptions) :
    Except String (Field × (EReal × EReal)) :=
  let f := mkField o
  match calculateRange f with
  | .error e => .error e
  | .ok r => .ok (f, r)

/-! ### Particle engine (src/CesiumParticles.ts) -/

/-- Particle state (src/Particle.ts via usage): position, staged target
(`undefined` until first staged, hence `Option`), last sampled magnitude,
and age. -/
structure Particle where
  x : ℚ
  y : ℚ
  xt : Option ℚ := none
  yt : Option ℚ := none
  m : Option ℝ := none
  age : ℤ

/-- `assignRandomPosition` (src/Field.ts lines 479-497).  The random pixel
indices `i, j` and the host `unproject([i, j])` result are oracle inputs. -/
def assignRandomPosition (f : Field) (i j : ℤ) (coords : Option (ℚ × ℚ))
    (p : Particle) : Particle :=
  match coords with
  | some c => { p with x := c.1, y := c.2 }
  | none => { p with x := longitudeAtX f i, y := latitudeAtY f j }

/-- One particle's pass through the `moveParticles` loop body
(src/CesiumParticles.ts lines 262-302): recycle when over-age, sample,
advect, stage or mark invisible, then the unconditional `particle.age++`. -/
noncomputable def moveOneParticle (f : Field) (velocityScale : ℚ)
    (maxAge : ℤ) (i j : ℤ) (coords : Option (ℚ × ℚ)) (p : Particle) :
    Particle :=
  let p1 := if p.age > maxAge then
      { assignRandomPosition f i j coords p with age := 0 }
    else p
  match interpolatedValueAt f p1.x p1.y with
  | none => { p1 with age := maxAge + 1 }
  | some vec =>
    let xt := p1.x + vec.u * velocityScale
    let yt := p1.y + vec.v * velocityScale
    if hasValueAt f xt yt then
      { p1 with xt := some xt, yt := some yt,
                m := some vec.magnitude, age := p1.age + 1 }
    else
      { p1 with x := xt, y := yt, age := maxAge + 1 }

/-- JS truthiness of a staged coordinate: `undefined` and `0` are falsy. -/
def jsTruthyCoord (c : Option ℚ) : Bool :=
  match c with
  | none => false
  | some q => decide (q ≠ 0)

/-- `drawCoordsParticle` (src/CesiumParticles.ts lines 346-384), with the
occlusion test and the two `project` calls as oracles: when the target is
visible, the particle is not over-age and both projections succeed, commit
`x,y ← xt,yt` and emit the screen-space segment. -/
def drawCoordsParticle (maxAge : ℤ) (intersects : ℚ × ℚ → Bool)
    (proj : ℚ × ℚ → Option (ℚ × ℚ)) (p : Particle) :
    Particle × Option ((ℚ × ℚ) × (ℚ × ℚ)) :=
  let source := (p.x, p.y)
  let target := (p.xt.getD 0, p.yt.getD 0)
  if intersects target = true ∧ p.age ≤ maxAge then
    match proj source, proj target with
    | some pointPrev, some pointNext =>
      ({ p with x := target.1, y := target.2 }, some (pointPrev, pointNext))
    | _, _ => (p, none)
  else (p, none)

/-- One particle's pass through the `drawParticles` loop body
(src/CesiumParticles.ts lines 327-338): skip (no segment, no commit) when
the staged `xt` or `yt` is falsy, else `drawCoordsParticle`. -/
def drawOneParticle (maxAge : ℤ) (intersects : ℚ × ℚ → Bool)
    (proj : ℚ × ℚ → Option (ℚ × ℚ)) (p : Particle) :
    Particle × Option ((ℚ × ℚ) × (ℚ × ℚ)) :=
  if jsTruthyCoord p.xt = false then (p, none)
  else if jsTruthyCoord p.yt = false then (p, none)
  else drawCoordsParticle maxAge intersects proj p

/-- One full `render` tick for a single particle (src/CesiumParticles.ts
lines 496-499): `moveParticles` then `drawParticles`. -/
noncomputable def tickOneParticle (f : Field) (velocityScale : ℚ)
    (maxAge : ℤ) (i j : ℤ) (coords : Option (ℚ × ℚ))
    (intersects : ℚ × ℚ → Bool) (proj : ℚ × ℚ → Option (ℚ × ℚ))
    (p : Particle) : Particle × Option ((ℚ × ℚ) × (ℚ × ℚ)) :=
  drawOneParticle maxAge intersects proj
    (moveOneParticle f velocityScale maxAge i j coords p)

/-! ### Spec-side interpolation (for the refinement claim)

Modelled from the spec: interpolation returns no value outside `contains`
or when any of the four surrounding corner cells is empty, and otherwise
the bilinear blend with weights `a=(1-x)(1-y), b=x(1-y), c=(1-x)y, d=xy`
where `x, y` are the fractional parts of the decimal indexes. -/

/-- Spec-side `interpolatedValueAt`: identical corner selection, but blend
weights taken from the fractional parts `Int.fract` of the decimal indexes. -/
def interpolatedValueAtSpec (f : Field) (lon lat : ℚ) : Option Vector :=
  if contains f lon lat then
    let ij := getDecimalIndexes f lon lat
    let idx := getFourSurroundingIndexes f ij.1 ij.2
    match getFourSurroundingValues f idx.1 idx.2.1 idx.2.2.1 idx.2.2.2 with
    | some (g00, g10, g01, g11) =>
      some (bilinearInterpolateVector (Int.fract ij.1) (Int.fract ij.2)
        g00 g10 g01 g11)
    | none => none
  else none

/-! ### The four-unit-vector example field from the spec -/

/-- Options of the spec's example field: `cols=2, rows=2, xmin=0, xmax=2,
ymin=0, ymax=2, deltaX=1, deltaY=1, us=[1,0,0,-1], vs=[0,1,-1,0]`. -/
def exampleOptions : FieldOptions :=
  { xmin := 0, xmax := 2, ymin := 0, ymax := 2, cols := 2, rows := 2,
    us := [some 1, some 0, some 0, some (-1)],
    vs := [some 0, some 1, some (-1), some 0],
    deltaX := 1, deltaY := 1 }

/-- The spec's example field. -/
def exampleField : Field := mkField exampleOptions

/-! ### Helper lemmas -/

/-- Closed form of `indexFor` when the range is non-degenerate: a finite
clamped rounded linear position. -/
theorem indexFor_eq_fin (m mn mx : ℚ) (scale : List String) (h : mx - mn ≠ 0) :
    indexFor m mn mx scale
      = .fin (max 0 (min ((scale.length : ℚ) - 1)
          ((⌊(m - mn) / (mx - mn) * ((scale.length : ℚ) - 1) + 1/2⌋ : ℤ) : ℚ))) := by
  simp [indexFor, jsDiv, jsMulFin, jsRound, jsMin, jsMax, h, min_comm, max_comm]

/-- A row index that is already in `[0, rows-1]` is left unchanged by
`clampRowIndex`. -/
theorem clampRowIndex_of_le (f : Field) (t : ℤ) (h0 : 0 ≤ t)
    (h1 : t ≤ (f.rows : ℤ) - 1) : clampRowIndex f t = t := by
  simp only [clampRowIndex]
  split_ifs <;> omega

/-- A row index above `rows - 1` is clamped to `rows - 1`. -/
theorem clampRowIndex_of_gt (f : Field) (t : ℤ)
    (h1 : (f.rows : ℤ) - 1 < t) : clampRowIndex f t = (f.rows : ℤ) - 1 := by
  simp only [clampRowIndex]
  split_ifs <;> omega

/-- When all four surrounding values are found, `g00` is exactly the grid
cell at the floor indexes, i.e. `valueAtIndexes` of `(fi, fj)`. -/
theorem fetch_g00 (f : Field) (fi ci fj cj : ℤ) (g00 g10 g01 g11 : Vector)
    (h : getFourSurroundingValues f fi ci fj cj = some (g00, g10, g01, g11)) :
    valueAtIndexes f fi fj = some g00 := by
  rw [getFourSurroundingValues] at h
  rw [valueAtIndexes]
  rcases hrow : jget f.grid fj with _ | row <;> simp only [hrow] at h ⊢
  · exact absurd h (by simp)
  · rcases h00 : (jget row fi).join with _ | u <;> simp only [h00] at h ⊢
    · exact absurd h (by simp)
    · rcases h10 : (jget row ci).join with _ | u' <;> simp only [h10] at h
      · exact absurd h (by simp)
      · rcases hrow2 : jget f.grid cj with _ | row2 <;> simp only [hrow2] at h
        · exact absurd h (by simp)
        · rcases h01 : (jget row2 fi).join with _ | u2 <;> simp only [h01] at h
          · exact absurd h (by simp)
          · rcases h11 : (jget row2 ci).join with _ | u3 <;> simp only [h11] at h
            · exact absurd h (by simp)
            · simp only [Option.some.injEq, Prod.mk.injEq] at h
              rw [h.1]

/-- When the floor row and the ceiling row coincide, the four fetched
values pair up: the lower corners repeat the upper corners. -/
theorem fetch_dup (f : Field) (a b t : ℤ) (g00 g10 g01 g11 : Vector)
    (h : getFourSurroundingValues f a b t t = some (g00, g10, g01, g11)) :
    g01 = g00 ∧ g11 = g10 := by
  rw [getFourSurroundingValues] at h
  rcases hrow : jget f.grid t with _ | row <;> simp only [hrow] at h
  · exact absurd h (by simp)
  · rcases h00 : (jget row a).join with _ | u <;> simp only [h00] at h
    · exact absurd h (by simp)
    · rcases h10 : (jget row b).join with _ | u' <;> simp only [h10] at h
      · exact absurd h (by simp)
      · simp only [Option.some.injEq, Prod.mk.injEq] at h
        exact ⟨h.2.2.1.symm.trans h.1, h.2.2.2.symm.trans h.2.1⟩

/-- Bilinear interpolation at weights `(0, 0)` returns the first corner. -/
theorem bilinear_zero (g00 g10 g01 g11 : Vector) :
    bilinearInterpolateVector 0 0 g00 g10 g01 g11 = g00 := by
  simp [bilinearInterpolateVector]

/-- When the two rows repeat, the `y` weight is irrelevant to the blend. -/
theorem bilinear_dup (x y y' : ℚ) (g00 g10 : Vector) :
    bilinearInterpolateVector x y g00 g10 g00 g10
      = bilinearInterpolateVector x y' g00 g10 g00 g10 := by
  simp only [bilinearInterpolateVector, Vector.mk.injEq]
  constructor <;> ring

/-- Under `contains` and a nonzero `deltaY`, the decimal row index is
non-negative (both for north-up and flipped south-up fields). -/
theorem decimal_j_nonneg (f : Field) (lon lat : ℚ) (hdY : f.deltaY ≠ 0)
    (hc : contains f lon lat = true) :
    0 ≤ (getDecimalIndexes f lon lat).2 := by
  have hlat : latitudeIn f lat = true := by
    rw [contains, Bool.and_eq_true] at hc
    exact hc.2
  rw [getDecimalIndexes]
  rw [latitudeIn] at hlat
  by_cases hsgn : 0 ≤ f.deltaY
  · have hpos : 0 < f.deltaY := lt_of_le_of_ne hsgn (Ne.symm hdY)
    rw [if_pos hsgn, Bool.and_eq_true, decide_eq_true_eq, decide_eq_true_eq]
      at hlat
    exact div_nonneg (by linarith [hlat.2]) (le_of_lt hpos)
  · have hneg : f.deltaY < 0 := not_le.mp hsgn
    rw [if_neg hsgn, Bool.and_eq_true, decide_eq_true_eq, decide_eq_true_eq]
      at hlat
    exact div_nonneg_of_nonpos (by linarith [hlat.1]) (le_of_lt hneg)

/-! ### Claim theorems -/

/-- C5 (counterexample): the claim says `indexFor` returns 0 whenever
`min == max`, but the source divides by `max - min`; for `m = min = max`
the JS computation is `0/0 = NaN`, which `Math.round`/`Math.min`/`Math.max`
propagate, so `indexFor(1, 1, 1, scale)` is `NaN`, not 0. -/
theorem C5_indexFor_counterexample :
    indexFor 1 1 1 ["a", "b"] = .nan ∧ JsNum.nan ≠ JsNum.fin 0 := by
  with_unfolding_all decide

/-- C5 (amended): for a non-empty scale and `min < max`, `indexFor` returns
0 at `m = min`, `scale.length - 1` at `m = max`, always a finite integer in
`[0, scale.length - 1]`, and is monotone non-decreasing in `m`.  When
`min == max` the division by zero makes `indexFor(min, min, min, scale)`
`NaN` (not 0): there is no division-fault protection in the source. -/
theorem C5_indexFor_behavior (m m' mn mx : ℚ) (scale : List String)
    (hs : scale ≠ []) (hlt : mn < mx) (hmm' : m ≤ m') :
    indexFor mn mn mx scale = .fin 0 ∧
    indexFor mx mn mx scale = .fin ((scale.length : ℚ) - 1) ∧
    (∃ z : ℤ, indexFor m mn mx scale = .fin (z : ℚ) ∧ 0 ≤ z ∧
      (z : ℚ) ≤ (scale.length : ℚ) - 1) ∧
    (∀ p q : ℚ, indexFor m mn mx scale = .fin p →
      indexFor m' mn mx scale = .fin q → p ≤ q) ∧
    indexFor mn mn mn scale = .nan := by
  have hd : mx - mn ≠ 0 := sub_ne_zero.mpr (ne_of_gt hlt)
  have hd' : (0 : ℚ) < mx - mn := sub_pos.mpr hlt
  have hlen : 1 ≤ scale.length := by
    cases scale with
    | nil => exact absurd rfl hs
    | cons a l => exact Nat.succ_le_succ (Nat.zero_le _)
  have hk0 : (0 : ℚ) ≤ (scale.length : ℚ) - 1 := by
    have : (1 : ℚ) ≤ (scale.length : ℚ) := by exact_mod_cast hlen
    linarith
  have hK : (((scale.length : ℤ) - 1 : ℤ) : ℚ) = (scale.length : ℚ) - 1 := by
    push_cast
    ring
  have hhalf : (⌊(1 : ℚ)/2⌋ : ℤ) = 0 := by
    rw [Int.floor_eq_zero_iff]
    constructor <;> norm_num
  refine ⟨?_, ?_, ?_, ?_, ?_⟩
  · rw [indexFor_eq_fin _ _ _ _ hd]
    have : (mn - mn) / (mx - mn) * ((scale.length : ℚ) - 1) + 1/2 = 1/2 := by
      field_simp
    rw [this, hhalf]
    norm_num [min_eq_right hk0]
  · rw [indexFor_eq_fin _ _ _ _ hd]
    have h1 : (mx - mn) / (mx - mn) * ((scale.length : ℚ) - 1) + 1/2
        = (((scale.length : ℤ) - 1 : ℤ) : ℚ) + 1/2 := by
      rw [div_self hd, one_mul, hK]
    rw [h1, Int.floor_int_add, hhalf, add_zero, hK, min_self,
      max_eq_right hk0]
  · rw [indexFor_eq_fin _ _ _ _ hd]
    refine ⟨max 0 (min ((scale.length : ℤ) - 1)
      ⌊(m - mn) / (mx - mn) * ((scale.length : ℚ) - 1) + 1/2⌋), ?_, ?_, ?_⟩
    · congr 1
      push_cast
      rfl
    · exact le_max_left 0 _
    · have h2 : (max 0 (min ((scale.length : ℤ) - 1)
          ⌊(m - mn) / (mx - mn) * ((scale.length : ℚ) - 1) + 1/2⌋))
          ≤ (scale.length : ℤ) - 1 := by
        have hK0 : (0 : ℤ) ≤ (scale.length : ℤ) - 1 := by
          omega
        exact max_le hK0 (min_le_left _ _)
      calc ((max 0 (min ((scale.length : ℤ) - 1)
            ⌊(m - mn) / (mx - mn) * ((scale.length : ℚ) - 1) + 1/2⌋) : ℤ) : ℚ)
          ≤ (((scale.length : ℤ) - 1 : ℤ) : ℚ) := by exact_mod_cast h2
        _ = (scale.length : ℚ) - 1 := hK
  · intro p q hp hq
    rw [indexFor_eq_fin _ _ _ _ hd] at hp hq
    have hp' := (JsNum.fin.injEq _ _).mp hp.symm
    have hq' := (JsNum.fin.injEq _ _).mp hq.symm
    rw [hp', hq']
    have hr : (m - mn) / (mx - mn) * ((scale.length : ℚ) - 1) + 1/2
        ≤ (m' - mn) / (mx - mn) * ((scale.length : ℚ) - 1) + 1/2 := by
      have : (m - mn) / (mx - mn) ≤ (m' - mn) / (mx - mn) :=
        (div_le_div_iff_of_pos_right hd').mpr (sub_le_sub_right hmm' mn)
      nlinarith [hk0]
    have hf : (⌊(m - mn) / (mx - mn) * ((scale.length : ℚ) - 1) + 1/2⌋ : ℤ)
        ≤ ⌊(m' - mn) / (mx - mn) * ((scale.length : ℚ) - 1) + 1/2⌋ :=
      Int.floor_le_floor hr
    have hf' : ((⌊(m - mn) / (mx - mn) * ((scale.length : ℚ) - 1) + 1/2⌋ : ℤ) : ℚ)
        ≤ ((⌊(m' - mn) / (mx - mn) * ((scale.length : ℚ) - 1) + 1/2⌋ : ℤ) : ℚ) := by
      exact_mod_cast hf
    exact max_le_max le_rfl (min_le_min le_rfl hf')
  · simp [indexFor, jsDiv, jsMulFin, jsRound, jsMin, jsMax]

/-- C5 (witness): the amended behavior at `m = 0, m' = 1, min = 0, max = 2`
over a three-color scale. -/
theorem C5_indexFor_behavior_witness :
    ((0 : ℚ) < 2 ∧ (0 : ℚ) ≤ 1 ∧ ["a", "b", "c"] ≠ ([] : List String)) ∧
    (indexFor 0 0 2 ["a", "b", "c"] = .fin 0 ∧
     indexFor 2 0 2 ["a", "b", "c"] = .fin (((["a", "b", "c"] : List String).length : ℚ) - 1) ∧
     (∃ z : ℤ, indexFor 0 0 2 ["a", "b", "c"] = .fin (z : ℚ) ∧ 0 ≤ z ∧
       (z : ℚ) ≤ ((["a", "b", "c"] : List String).length : ℚ) - 1) ∧
     (∀ p q : ℚ, indexFor 0 0 2 ["a", "b", "c"] = .fin p →
       indexFor 1 0 2 ["a", "b", "c"] = .fin q → p ≤ q) ∧
     indexFor 0 0 0 ["a", "b", "c"] = .nan) :=
  ⟨⟨by norm_num, by norm_num, by simp⟩,
   C5_indexFor_behavior 0 1 0 2 ["a", "b", "c"] (by simp) (by norm_num) (by norm_num)⟩

/-- Options exhibiting `deltaY < 0` together with `ymin ≥ ymax`: the
constructor's flip-Y test `deltaY < 0 && ymin < ymax` fails, so the bounds
get re-sorted. -/
def flipOptions : FieldOptions :=
  { xmin := 0, xmax := 1, ymin := 10, ymax := 0, cols := 1, rows := 1,
    us := [some 1], vs := [some 1], deltaX := 1, deltaY := -1 }

/-- C8 (counterexample): the claim says `deltaY < 0` alone prevents
re-sorting of `ymin`/`ymax`, but with `deltaY = -1`, `ymin = 10`,
`ymax = 0` the constructor's condition `deltaY < 0 && ymin < ymax` is false
and the bounds are re-sorted to `ymin = 0`, `ymax = 10`. -/
theorem C8_flipY_counterexample :
    flipOptions.deltaY < 0 ∧
    (mkField flipOptions).ymin = 0 ∧ (mkField flipOptions).ymax = 10 ∧
    ¬((mkField flipOptions).ymin = flipOptions.ymin ∧
      (mkField flipOptions).ymax = flipOptions.ymax) := by
  with_unfolding_all decide

/-- C8 (amended): the stored bounds are kept as given exactly when
`deltaY < 0` AND `options.ymin < options.ymax`; in every other case
(including `deltaY < 0` with `ymin ≥ ymax`) they are re-sorted ascending.
Both ways the stored bounds satisfy `ymin ≤ ymax`. -/
theorem C8_ymin_ymax_sorting (o : FieldOptions) :
    ((mkField o).ymin, (mkField o).ymax)
      = (if o.deltaY < 0 ∧ o.ymin < o.ymax then (o.ymin, o.ymax)
         else (min o.ymax o.ymin, max o.ymax o.ymin)) ∧
    (mkField o).ymin ≤ (mkField o).ymax := by
  by_cases h : o.deltaY < 0 ∧ o.ymin < o.ymax
  · exact ⟨by simp [mkField, h], by simp [mkField, h, le_of_lt h.2]⟩
  · exact ⟨by simp [mkField, h], by simp [mkField, h, min_le_max]⟩

/-- C1 (counterexample): interpolating the example field at the exact
center `(1, 1)` does not return the four-corner average `u = 0, v = 0`:
the decimal indexes at `(1, 1)` are exactly `(1, 1)`, the column/row
ceilings clamp back onto index 1, and the blend weights are `x = y = 0`,
so the result is the single cell `(1, 1) = Vector(-1, 0)`. -/
theorem C1_center_counterexample :
    interpolatedValueAt exampleField 1 1 = some ⟨-1, 0⟩ ∧
    interpolatedValueAt exampleField 1 1 ≠ some ⟨0, 0⟩ := by
  with_unfolding_all decide

/-- C1 (amended): at `(1, 1)` the interpolation returns the stored corner
cell `(1, 1) = Vector(-1, 0)` (magnitude 1), not the average; the
four-corner average `u = 0, v = 0, magnitude = 0` is instead returned at
`(1/2, 3/2)`, the point whose decimal indexes are `(1/2, 1/2)`. -/
theorem C1_center_interpolation :
    interpolatedValueAt exampleField 1 1 = some ⟨-1, 0⟩ ∧
    valueAtIndexes exampleField 1 1 = some ⟨-1, 0⟩ ∧
    Vector.magnitude ⟨-1, 0⟩ = 1 ∧
    interpolatedValueAt exampleField (1/2) (3/2) = some ⟨0, 0⟩ ∧
    Vector.magnitude ⟨0, 0⟩ = 0 := by
  refine ⟨by with_unfolding_all rfl, by with_unfolding_all rfl, ?_,
    by with_unfolding_all rfl, ?_⟩
  · show Real.sqrt _ = 1
    norm_num
  · show Real.sqrt _ = 0
    norm_num

/-- C2 (counterexample): the index-to-coordinate mapping `longitudeAtX` /
`latitudeAtY` uses the cell-center convention, but `getDecimalIndexes`
uses the cell-edge convention, so grid node `(0, 0)` maps to `(1/2, 3/2)`
whose decimal indexes are `(1/2, 1/2)`: interpolation there returns the
four-corner average `Vector(0, 0)`, not the stored cell `Vector(1, 0)`. -/
theorem C2_node_counterexample :
    longitudeAtX exampleField 0 = 1/2 ∧ latitudeAtY exampleField 0 = 3/2 ∧
    valueAtIndexes exampleField 0 0 = some ⟨1, 0⟩ ∧
    interpolatedValueAt exampleField (longitudeAtX exampleField 0)
      (latitudeAtY exampleField 0) = some ⟨0, 0⟩ ∧
    (some (⟨0, 0⟩ : Vector) ≠ some (⟨1, 0⟩ : Vector)) := by
  with_unfolding_all decide

/-- C10: if a particle's staged target has `xt = 0` or `yt = 0`, the draw
step's JS truthiness guards (`if (!particles[i].xt) continue`) treat it as
absent: no segment is produced and the position is not committed,
regardless of coverage, age, occlusion or projection. -/
theorem C10_zero_target_skip (maxAge : ℤ) (intersects : ℚ × ℚ → Bool)
    (proj : ℚ × ℚ → Option (ℚ × ℚ)) (p : Particle)
    (h : p.xt = some 0 ∨ p.yt = some 0) :
    drawOneParticle maxAge intersects proj p = (p, none) := by
  rcases h with h | h
  · simp [drawOneParticle, jsTruthyCoord, h]
  · rcases hx : jsTruthyCoord p.xt with _ | _
    · simp [drawOneParticle, hx]
    · simp [drawOneParticle, hx, jsTruthyCoord, h]

/-- C10 (witness): a particle with staged target `xt = 0` inside coverage
and with age 0 is skipped whole: no segment, position untouched. -/
theorem C10_zero_target_skip_witness :
    ((⟨1, 1, some 0, some 5, none, 0⟩ : Particle).xt = some 0 ∨
     (⟨1, 1, some 0, some 5, none, 0⟩ : Particle).yt = some 0) ∧
    drawOneParticle 2 (fun _ => true) (fun c => some c)
      ⟨1, 1, some 0, some 5, none, 0⟩
      = (⟨1, 1, some 0, some 5, none, 0⟩, none) :=
  ⟨Or.inl rfl,
   C10_zero_target_skip 2 (fun _ => true) (fun c => some c)
     ⟨1, 1, some 0, some 5, none, 0⟩ (Or.inl rfl)⟩

/-- C7: a particle that is not over-age, whose sample succeeds but whose
advected target `(xt, yt)` has `hasValueAt = false`, still moves
(`x, y ← xt, yt`), keeps its staged `xt`/`yt`/`m` untouched, ends the tick
with `age = maxAge + 1` (the source sets `age = maxAge` and then runs the
unconditional `age++`), produces no draw segment and is not touched by the
draw step; the recycle itself is deferred to the next tick's
`age > maxAge` check. -/
theorem C7_exit_coverage (f : Field) (s : ℚ) (maxAge : ℤ) (i j : ℤ)
    (coords : Option (ℚ × ℚ)) (intersects : ℚ × ℚ → Bool)
    (proj : ℚ × ℚ → Option (ℚ × ℚ)) (p : Particle) (w : Vector)
    (h0 : ¬(p.age > maxAge))
    (h1 : interpolatedValueAt f p.x p.y = some w)
    (h2 : hasValueAt f (p.x + w.u * s) (p.y + w.v * s) = false) :
    moveOneParticle f s maxAge i j coords p
      = { p with x := p.x + w.u * s, y := p.y + w.v * s, age := maxAge + 1 } ∧
    (moveOneParticle f s maxAge i j coords p).age > maxAge ∧
    drawOneParticle maxAge intersects proj
      (moveOneParticle f s maxAge i j coords p)
      = (moveOneParticle f s maxAge i j coords p, none) := by
  have hm : moveOneParticle f s maxAge i j coords p
      = { p with x := p.x + w.u * s, y := p.y + w.v * s, age := maxAge + 1 } := by
    rw [moveOneParticle, if_neg h0, h1]
    simp [h2]
  have hage : ¬((maxAge + 1 : ℤ) ≤ maxAge) := by omega
  refine ⟨hm, by rw [hm]; exact lt_add_one maxAge, ?_⟩
  rw [hm]
  rcases hx : jsTruthyCoord p.xt with _ | _
  · simp [drawOneParticle, hx]
  · rcases hy : jsTruthyCoord p.yt with _ | _
    · simp [drawOneParticle, hx, hy]
    · simp [drawOneParticle, drawCoordsParticle, hx, hy, hage]

/-- C7 (witness): in the example field, a particle at `(3/4, 1)` with a
large velocity scale is advected far outside coverage: it moves, is marked
over-age, and draws nothing. -/
theorem C7_exit_coverage_witness :
    (¬((0 : ℤ) > 2)) ∧
    interpolatedValueAt exampleField (3/4) 1 = some ⟨-3/4, -1/4⟩ ∧
    hasValueAt exampleField (3/4 + (-3/4) * 1000) (1 + (-1/4) * 1000) = false ∧
    (moveOneParticle exampleField 1000 2 0 0 none ⟨3/4, 1, none, none, none, 0⟩
      = { x := 3/4 + (-3/4) * 1000, y := 1 + (-1/4) * 1000,
          xt := none, yt := none, m := none, age := 2 + 1 } ∧
     (moveOneParticle exampleField 1000 2 0 0 none
        ⟨3/4, 1, none, none, none, 0⟩).age > 2 ∧
     drawOneParticle 2 (fun _ => true) (fun c => some c)
       (moveOneParticle exampleField 1000 2 0 0 none ⟨3/4, 1, none, none, none, 0⟩)
       = (moveOneParticle exampleField 1000 2 0 0 none
           ⟨3/4, 1, none, none, none, 0⟩, none)) :=
  ⟨by decide, by with_unfolding_all rfl, by with_unfolding_all rfl,
   C7_exit_coverage exampleField 1000 2 0 0 none (fun _ => true)
     (fun c => some c) ⟨3/4, 1, none, none, none, 0⟩ ⟨-3/4, -1/4⟩
     (by decide) (by with_unfolding_all rfl) (by with_unfolding_all rfl)⟩

/-- C6 (counterexample): a particle with `age = 3 > maxAge = 2` is recycled
at the start of the tick, but the same tick samples at the reseeded
position `(3/4, 1)`, stages a fresh target and (with the occlusion and
projection oracles succeeding) draws a segment — contradicting the claim
that a particle never draws a segment on the tick it was recycled. -/
theorem C6_recycle_draw_counterexample :
    (3 : ℤ) > 2 ∧
    (tickOneParticle exampleField (1/10) 2 0 0 (some (3/4, 1))
      (fun _ => true) (fun c => some c) ⟨0, 0, none, none, none, 3⟩).2
      = some ((3/4, 1), (27/40, 39/40)) := by
  constructor
  · decide
  · with_unfolding_all rfl

/-- C6 (amended): a particle whose age exceeds `maxAge` at the start of a
tick is recycled: its age is reset to 0 and its position is reseeded via
the random-position seeding before sampling.  But it CAN draw a segment on
that same tick: when interpolation at the reseeded position `q` succeeds
and the advected target stays in coverage, the move step stages a fresh
target from `q` and ends the tick with `age = 1`, and the staged segment is
eligible for drawing. -/
theorem C6_recycle_behavior (f : Field) (s : ℚ) (maxAge : ℤ) (i j : ℤ)
    (coords : Option (ℚ × ℚ)) (p q : Particle) (w : Vector)
    (hq : assignRandomPosition f i j coords p = q)
    (h : p.age > maxAge)
    (hw : interpolatedValueAt f q.x q.y = some w)
    (hc : hasValueAt f (q.x + w.u * s) (q.y + w.v * s) = true) :
    moveOneParticle f s maxAge i j coords p
      = { q with xt := some (q.x + w.u * s), yt := some (q.y + w.v * s),
                 m := some w.magnitude, age := 1 } := by
  rw [moveOneParticle, if_pos h, hq]
  have hx : ({ q with age := 0 } : Particle).x = q.x := rfl
  have hy : ({ q with age := 0 } : Particle).y = q.y := rfl
  rw [hx, hy, hw]
  simp [hc]

/-- C6 (witness): the amended recycle behavior at the concrete recycle tick
of the counterexample: reseed to `(3/4, 1)`, sample `(-3/4, -1/4)`, stage
the in-coverage target, end with age 1. -/
theorem C6_recycle_behavior_witness :
    (assignRandomPosition exampleField 0 0 (some (3/4, 1))
       ⟨0, 0, none, none, none, 3⟩ = ⟨3/4, 1, none, none, none, 3⟩) ∧
    ((3 : ℤ) > 2) ∧
    interpolatedValueAt exampleField (3/4) 1 = some ⟨-3/4, -1/4⟩ ∧
    hasValueAt exampleField (3/4 + (-3/4) * (1/10)) (1 + (-1/4) * (1/10)) = true ∧
    moveOneParticle exampleField (1/10) 2 0 0 (some (3/4, 1))
      ⟨0, 0, none, none, none, 3⟩
      = { x := 3/4, y := 1, xt := some (3/4 + (-3/4) * (1/10)),
          yt := some (1 + (-1/4) * (1/10)),
          m := some (Vector.magnitude ⟨-3/4, -1/4⟩), age := 1 } :=
  ⟨rfl, by decide, by with_unfolding_all rfl, by with_unfolding_all rfl,
   C6_recycle_behavior exampleField (1/10) 2 0 0 (some (3/4, 1))
     ⟨0, 0, none, none, none, 3⟩ ⟨3/4, 1, none, none, none, 3⟩ ⟨-3/4, -1/4⟩
     rfl (by decide) (by with_unfolding_all rfl) (by with_unfolding_all rfl)⟩

/-- The `calculateRange` fold keeps `min ≤ max` once it holds, and any
non-empty cell establishes it. -/
theorem foldl_rangeStep_le (l : List (Option Vector)) (acc : EReal × EReal)
    (h : acc.1 ≤ acc.2 ∨ ∃ w : Vector, some w ∈ l) :
    (l.foldl rangeStep acc).1 ≤ (l.foldl rangeStep acc).2 := by
  induction l generalizing acc with
  | nil =>
    rcases h with h | ⟨w, hw⟩
    · exact h
    · exact absurd hw (List.not_mem_nil _)
  | cons a l ih =>
    rcases a with _ | u
    · refine ih (rangeStep acc none) ?_
      rcases h with h | ⟨w, hw⟩
      · exact Or.inl h
      · rcases List.mem_cons.mp hw with h' | h'
        · exact absurd h' (by simp)
        · exact Or.inr ⟨w, h'⟩
    · refine ih (rangeStep acc (some u)) (Or.inl ?_)
      show min acc.1 (u.magnitude : ℝ) ≤ max acc.2 (u.magnitude : ℝ)
      exact le_trans (min_le_right _ _) (le_max_right _ _)

/-- Options for an all-empty 1×1 grid: construction must exercise the
zero-valid-cells path. -/
def emptyOptions : FieldOptions :=
  { xmin := 0, xmax := 1, ymin := 0, ymax := 1, cols := 1, rows := 1,
    us := [none], vs := [none], deltaX := 1, deltaY := 1 }

/-- C4 (counterexample): constructing a `Field` whose single cell is empty
does NOT fail: `calculateRange` only throws when `grid[0]` is missing (zero
rows), and with zero valid cells its fold never updates the initial
`min = +Infinity`, `max = -Infinity`, so construction succeeds with range
`(⊤, ⊥)`, for which `range[0] ≤ range[1]` is false. -/
theorem C4_empty_grid_counterexample :
    constructField emptyOptions = .ok (mkField emptyOptions, (⊤, ⊥)) ∧
    ¬ ((⊤ : EReal) ≤ (⊥ : EReal)) :=
  ⟨by with_unfolding_all rfl, not_le.mpr bot_lt_top⟩

/-- C4 (amended): construction with zero valid cells succeeds whenever the
grid has at least one row (the only construction error is a missing first
row), producing the inverted range `(+Infinity, -Infinity)`; the ordering
`range[0] ≤ range[1]` holds for every successfully constructed field whose
grid has at least one non-empty cell. -/
theorem C4_range_order (o : FieldOptions) (f : Field) (r : EReal × EReal)
    (w : Vector) (hc : constructField o = .ok (f, r))
    (hw : some w ∈ (mkField o).grid.flatten) :
    r.1 ≤ r.2 := by
  have hr : r = (mkField o).grid.flatten.foldl rangeStep (⊤, ⊥) := by
    rw [constructField] at hc
    rcases hg : (mkField o).grid.get? 0 with _ | row
    · rw [calculateRange, hg] at hc
      exact absurd hc (by simp)
    · rw [calculateRange, hg] at hc
      simp only [Except.ok.injEq, Prod.mk.injEq] at hc
      exact hc.2.symm
  rw [hr]
  exact foldl_rangeStep_le _ _ (Or.inr ⟨w, hw⟩)

/-- C4 (witness): the example field constructs successfully and contains
the non-empty cell `Vector(1, 0)`, so its computed range is ordered. -/
theorem C4_range_order_witness :
    ((mkField exampleOptions).grid.flatten.foldl rangeStep (⊤, ⊥)).1
      ≤ ((mkField exampleOptions).grid.flatten.foldl rangeStep (⊤, ⊥)).2 :=
  C4_range_order exampleOptions (mkField exampleOptions)
    ((mkField exampleOptions).grid.flatten.foldl rangeStep (⊤, ⊥)) ⟨1, 0⟩
    (by with_unfolding_all rfl) (by with_unfolding_all decide)

/-- C2 (amended): exact node reproduction holds at the EDGE-convention
coordinates `(xmin + i*deltaX, ymax - j*deltaY)` (NOT at the cell-center
coordinates `longitudeAtX`/`latitudeAtY`): there the decimal indexes are
exactly `(i, j)`, the blend weights vanish, and interpolation returns the
stored cell `(i, j)` whenever the four surrounding corners are all
non-empty and the point is inside `contains`. -/
theorem C2_node_reproduction (f : Field) (i j : ℤ) (g00 g10 g01 g11 : Vector)
    (hdX : f.deltaX ≠ 0) (hdY : f.deltaY ≠ 0)
    (h0 : 0 ≤ (i : ℚ) * f.deltaX) (h360 : (i : ℚ) * f.deltaX < 360)
    (hj0 : 0 ≤ j) (hjr : j ≤ (f.rows : ℤ) - 1)
    (hcont : contains f (f.xmin + (i : ℚ) * f.deltaX)
      (f.ymax - (j : ℚ) * f.deltaY) = true)
    (hv : getFourSurroundingValues f
        ((getFourSurroundingIndexes f (i : ℚ) (j : ℚ)).1)
        ((getFourSurroundingIndexes f (i : ℚ) (j : ℚ)).2.1)
        ((getFourSurroundingIndexes f (i : ℚ) (j : ℚ)).2.2.1)
        ((getFourSurroundingIndexes f (i : ℚ) (j : ℚ)).2.2.2)
      = some (g00, g10, g01, g11)) :
    interpolatedValueAt f (f.xmin + (i : ℚ) * f.deltaX)
      (f.ymax - (j : ℚ) * f.deltaY) = some g00 ∧
    valueAtIndexes f i j = some g00 := by
  have hfi : (getFourSurroundingIndexes f (i : ℚ) (j : ℚ)).1 = i := by
    simp [getFourSurroundingIndexes]
  have hfj : (getFourSurroundingIndexes f (i : ℚ) (j : ℚ)).2.2.1 = j := by
    simp only [getFourSurroundingIndexes, Int.floor_intCast]
    exact clampRowIndex_of_le f j hj0 hjr
  have hdec : getDecimalIndexes f (f.xmin + (i : ℚ) * f.deltaX)
      (f.ymax - (j : ℚ) * f.deltaY) = ((i : ℚ), (j : ℚ)) := by
    rw [getDecimalIndexes, floorMod]
    have e1 : f.xmin + (i : ℚ) * f.deltaX - f.xmin = (i : ℚ) * f.deltaX := by
      ring
    have e2 : (⌊(i : ℚ) * f.deltaX / 360⌋ : ℤ) = 0 := by
      rw [Int.floor_eq_zero_iff, Set.mem_Ico]
      exact ⟨div_nonneg h0 (by norm_num),
        (div_lt_one (by norm_num)).mpr h360⟩
    rw [e1, e2]
    have e3 : f.ymax - (f.ymax - (j : ℚ) * f.deltaY) = (j : ℚ) * f.deltaY := by
      ring
    rw [e3]
    simp only [Int.cast_zero, mul_zero, sub_zero, Prod.mk.injEq]
    exact ⟨mul_div_cancel_right₀ _ hdX, mul_div_cancel_right₀ _ hdY⟩
  constructor
  · rw [interpolatedValueAt, if_pos hcont, hdec]
    simp only [interpolatePoint]
    rw [hv, hfi, hfj]
    simp [bilinear_zero]
  · have hval := fetch_g00 f _ _ _ _ g00 g10 g01 g11 hv
    rwa [hfi, hfj] at hval

/-- C2 (witness): in the example field, the edge-convention point of node
`(0, 0)` is `(0, 2)`, whose interpolation returns the stored `Vector(1, 0)`
exactly. -/
theorem C2_node_reproduction_witness :
    (exampleField.deltaX ≠ 0 ∧ exampleField.deltaY ≠ 0 ∧
     contains exampleField (exampleField.xmin + ((0 : ℤ) : ℚ) * exampleField.deltaX)
       (exampleField.ymax - ((0 : ℤ) : ℚ) * exampleField.deltaY) = true) ∧
    interpolatedValueAt exampleField
      (exampleField.xmin + ((0 : ℤ) : ℚ) * exampleField.deltaX)
      (exampleField.ymax - ((0 : ℤ) : ℚ) * exampleField.deltaY)
      = some ⟨1, 0⟩ ∧
    valueAtIndexes exampleField 0 0 = some ⟨1, 0⟩ :=
  ⟨⟨by with_unfolding_all decide, by with_unfolding_all decide,
     by with_unfolding_all rfl⟩,
   C2_node_reproduction exampleField 0 0 ⟨1, 0⟩ ⟨0, 1⟩ ⟨0, -1⟩ ⟨-1, 0⟩
     (by with_unfolding_all decide) (by with_unfolding_all decide)
     (by with_unfolding_all decide) (by with_unfolding_all decide)
     (by decide) (by with_unfolding_all decide)
     (by with_unfolding_all rfl) (by with_unfolding_all rfl)⟩

/-- C3: `interpolatedValueAt` refines the spec's description: no value
outside `contains`; no value as soon as one of the four surrounding corner
cells is empty; otherwise the bilinear blend with weights built from the
fractional parts of the decimal indexes — never a partial interpolation.
(The code's `y` weight uses the clamped floor row, which differs from the
fractional part only when the row was clamped, and then the two fetched
rows coincide so the blend is unchanged.  `deltaY ≠ 0` excludes the
degenerate zero-cell-height field, where the JS division by zero has no
rational counterpart.) -/
theorem C3_interpolation_refines_spec (f : Field) (lon lat : ℚ)
    (hdY : f.deltaY ≠ 0) :
    interpolatedValueAt f lon lat = interpolatedValueAtSpec f lon lat := by
  by_cases hc : contains f lon lat = true
  · have hj : 0 ≤ (getDecimalIndexes f lon lat).2 :=
      decimal_j_nonneg f lon lat hdY hc
    simp only [interpolatedValueAt, interpolatedValueAtSpec, hc, if_true]
    set i := (getDecimalIndexes f lon lat).1 with hidef
    set j := (getDecimalIndexes f lon lat).2 with hjdef
    have hfl : (0 : ℤ) ≤ ⌊j⌋ := Int.floor_nonneg.mpr hj
    have hid : (getFourSurroundingIndexes f i j).1 = ⌊i⌋ := by
      simp only [getFourSurroundingIndexes]
    simp only [interpolatePoint]
    by_cases hcl : ⌊j⌋ ≤ (f.rows : ℤ) - 1
    · have h1 : (getFourSurroundingIndexes f i j).2.2.1 = ⌊j⌋ := by
        simp only [getFourSurroundingIndexes]
        exact clampRowIndex_of_le f _ hfl hcl
      cases hfetch : getFourSurroundingValues f
          (getFourSurroundingIndexes f i j).1
          (getFourSurroundingIndexes f i j).2.1
          (getFourSurroundingIndexes f i j).2.2.1
          (getFourSurroundingIndexes f i j).2.2.2 with
      | none => rfl
      | some v =>
        obtain ⟨g00, g10, g01, g11⟩ := v
        simp only [hid, h1, Int.self_sub_floor]
    · push_neg at hcl
      have h1 : (getFourSurroundingIndexes f i j).2.2.1 = (f.rows : ℤ) - 1 := by
        simp only [getFourSurroundingIndexes]
        exact clampRowIndex_of_gt f _ hcl
      have h2 : (getFourSurroundingIndexes f i j).2.2.2 = (f.rows : ℤ) - 1 := by
        simp only [getFourSurroundingIndexes]
        rw [clampRowIndex_of_gt f _ hcl]
        exact clampRowIndex_of_gt f _ (by omega)
      cases hfetch : getFourSurroundingValues f
          (getFourSurroundingIndexes f i j).1
          (getFourSurroundingIndexes f i j).2.1
          (getFourSurroundingIndexes f i j).2.2.1
          (getFourSurroundingIndexes f i j).2.2.2 with
      | none => rfl
      | some v =>
        obtain ⟨g00, g10, g01, g11⟩ := v
        have hfetch2 := hfetch
        rw [h1, h2] at hfetch2
        obtain ⟨e01, e11⟩ := fetch_dup f _ _ _ g00 g10 g01 g11 hfetch2
        subst e01
        subst e11
        simp only [hid, h1, Int.self_sub_floor]
        exact congrArg some (bilinear_dup (Int.fract i) _ _ _ _)
  · rw [interpolatedValueAt, interpolatedValueAtSpec, if_neg hc, if_neg hc]

/-- C3 (witness): the refinement holds at the example field's center, where
both sides return `Vector(-1, 0)`. -/
theorem C3_interpolation_refines_spec_witness :
    exampleField.deltaY ≠ 0 ∧
    interpolatedValueAt exampleField 1 1 = interpolatedValueAtSpec exampleField 1 1 :=
  ⟨by with_unfolding_all decide,
   C3_interpolation_refines_spec exampleField 1 1 (by with_unfolding_all decide)⟩

/-- A column index above `cols - 1` is clamped to `cols - 1`. -/
theorem clampColumnIndex_of_gt (f : Field) (t : ℤ)
    (h1 : (f.cols : ℤ) - 1 < t) : clampColumnIndex f t = (f.cols : ℤ) - 1 := by
  simp only [clampColumnIndex]
  split_ifs <;> omega

/-- Every row of a non-continuous built grid has exactly `cols` cells. -/
theorem buildGrid_row_length (o : FieldOptions) (t : ℤ)
    (row : List (Option Vector)) (h : jget (buildGrid o false) t = some row) :
    row.length = o.cols := by
  rw [jget] at h
  split_ifs at h
  · rw [buildGrid, List.get?_map] at h
    rcases hk : (List.range o.rows).get? t.toNat with _ | k <;> rw [hk] at h
    · exact absurd h (by simp)
    · simp only [Option.map_some', Option.some.injEq] at h
      rw [← h, gridRow]
      simp

/-- A fetch whose floor column misses the row (the cell is `undefined`)
finds no surrounding values. -/
theorem fetch_none_of_fi_missing (f : Field) (fi ci fj cj : ℤ)
    (h : ∀ row, jget f.grid fj = some row → (jget row fi).join = none) :
    getFourSurroundingValues f fi ci fj cj = none := by
  rw [getFourSurroundingValues]
  rcases hrow : jget f.grid fj with _ | row
  · rfl
  · simp only [h row hrow]

/-- C9: on a non-wrapped, non-continuous field, a query point on the
eastern boundary whose decimal column index is exactly `cols` is inside
`contains`, and `valueAt`/`hasValueAt` answer from the clamped edge column
`cols - 1`; yet `interpolatedValueAt` returns no value, because the floor
column `fi = cols` is never clamped and the corner fetch reads past the
end of the row. -/
theorem C9_east_boundary (o : FieldOptions) (lat : ℚ)
    (hw : (mkField o).wrappedX = false)
    (hcont0 : (mkField o).isContinuous = false)
    (hxm : (mkField o).xmin ≤ (mkField o).xmax)
    (hlat : latitudeIn (mkField o) lat = true)
    (hi : (getDecimalIndexes (mkField o) (mkField o).xmax lat).1 = (o.cols : ℚ)) :
    contains (mkField o) (mkField o).xmax lat = true ∧
    valueAt (mkField o) (mkField o).xmax lat
      = valueAtIndexes (mkField o) ((o.cols : ℤ) - 1)
          (clampRowIndex (mkField o)
            ⌊(getDecimalIndexes (mkField o) (mkField o).xmax lat).2⌋) ∧
    hasValueAt (mkField o) (mkField o).xmax lat
      = (valueAtIndexes (mkField o) ((o.cols : ℤ) - 1)
          (clampRowIndex (mkField o)
            ⌊(getDecimalIndexes (mkField o) (mkField o).xmax lat).2⌋)).isSome ∧
    interpolatedValueAt (mkField o) (mkField o).xmax lat = none := by
  have hcont : contains (mkField o) (mkField o).xmax lat = true := by
    rw [contains, getWrappedLongitudes, hw]
    simp [hxm, hlat]
  have hfloor : ⌊(getDecimalIndexes (mkField o) (mkField o).xmax lat).1⌋
      = (o.cols : ℤ) := by
    rw [hi, Int.floor_natCast]
  have hgrid : (mkField o).grid = buildGrid o false := by
    show buildGrid o (mkField o).isContinuous = buildGrid o false
    rw [hcont0]
  have hcolseq : (mkField o).cols = o.cols := rfl
  have hval : valueAt (mkField o) (mkField o).xmax lat
      = valueAtIndexes (mkField o) ((o.cols : ℤ) - 1)
          (clampRowIndex (mkField o)
            ⌊(getDecimalIndexes (mkField o) (mkField o).xmax lat).2⌋) := by
    simp only [valueAt, hcont, if_true]
    rw [hfloor, clampColumnIndex_of_gt (mkField o) _ (by rw [hcolseq]; omega),
      hcolseq]
  refine ⟨hcont, hval, by rw [hasValueAt, hval], ?_⟩
  rw [interpolatedValueAt, if_pos hcont]
  simp only [interpolatePoint]
  have hfi : (getFourSurroundingIndexes (mkField o)
      (getDecimalIndexes (mkField o) (mkField o).xmax lat).1
      (getDecimalIndexes (mkField o) (mkField o).xmax lat).2).1
      = (o.cols : ℤ) := by
    simp only [getFourSurroundingIndexes]
    exact hfloor
  have hnone : getFourSurroundingValues (mkField o)
      (getFourSurroundingIndexes (mkField o)
        (getDecimalIndexes (mkField o) (mkField o).xmax lat).1
        (getDecimalIndexes (mkField o) (mkField o).xmax lat).2).1
      (getFourSurroundingIndexes (mkField o)
        (getDecimalIndexes (mkField o) (mkField o).xmax lat).1
        (getDecimalIndexes (mkField o) (mkField o).xmax lat).2).2.1
      (getFourSurroundingIndexes (mkField o)
        (getDecimalIndexes (mkField o) (mkField o).xmax lat).1
        (getDecimalIndexes (mkField o) (mkField o).xmax lat).2).2.2.1
      (getFourSurroundingIndexes (mkField o)
        (getDecimalIndexes (mkField o) (mkField o).xmax lat).1
        (getDecimalIndexes (mkField o) (mkField o).xmax lat).2).2.2.2
      = none := by
    rw [hfi]
    refine fetch_none_of_fi_missing (mkField o) _ _ _ _ (fun row hrow => ?_)
    rw [hgrid] at hrow
    have hlen : row.length = o.cols := buildGrid_row_length o _ row hrow
    rw [jget, if_pos (by omega : (0 : ℤ) ≤ (o.cols : ℤ))]
    rw [List.get?_eq_none.mpr (by simp [hlen])]
    rfl
  rw [hnone]

/-- C9 (witness): the example field at the eastern boundary point `(2, 1)`:
contained, nearest lookup answers from the clamped edge cell `(1, 1)`, but
interpolation finds no value. -/
theorem C9_east_boundary_witness :
    (exampleField.wrappedX = false ∧ exampleField.isContinuous = false ∧
     exampleField.xmin ≤ exampleField.xmax ∧
     latitudeIn exampleField 1 = true ∧
     (getDecimalIndexes exampleField exampleField.xmax 1).1
       = (exampleOptions.cols : ℚ)) ∧
    (contains exampleField exampleField.xmax 1 = true ∧
     valueAt exampleField exampleField.xmax 1
       = valueAtIndexes exampleField ((exampleOptions.cols : ℤ) - 1)
           (clampRowIndex exampleField
             ⌊(getDecimalIndexes exampleField exampleField.xmax 1).2⌋) ∧
     hasValueAt exampleField exampleField.xmax 1
       = (valueAtIndexes exampleField ((exampleOptions.cols : ℤ) - 1)
           (clampRowIndex exampleField
             ⌊(getDecimalIndexes exampleField exampleField.xmax 1).2⌋)).isSome ∧
     interpolatedValueAt exampleField exampleField.xmax 1 = none) :=
  ⟨⟨by with_unfolding_all rfl, by with_unfolding_all rfl,
    by with_unfolding_all decide, by with_unfolding_all rfl,
    by with_unfolding_all decide⟩,
   C9_east_boundary exampleOptions 1 (by with_unfolding_all rfl)
     (by with_unfolding_all rfl) (by with_unfolding_all decide)
     (by with_unfolding_all rfl) (by with_unfolding_all decide)⟩

end Wind
